import Mathlib

/-!
Verification development for the mercari-buddy categorization engine.

The Python sources under src/ are shallowly embedded:
pure string manipulation becomes functions on `String` (whose logical model
is a `List Char`, matching Python str as a sequence of code points, with the
ASCII case mapping, since every piece of repository data is ASCII);
stateful code (the SQLite exact cache, the in-memory similarity index, the
rate limiter) becomes explicit state passing; code that can raise becomes
`Except`/`Option`; float arithmetic is idealized as exact rational
arithmetic over `ℚ`; external collaborators (the MD5 digest, the embedding
model, cosine similarity, the LLM service) are oracle parameters.
-/

namespace Mercari

/-! ## Python string primitives
Characters Python treats as whitespace in str.strip, and which fall in the
regex character class \s (ASCII range). -/

def pySpaceChar (c : Char) : Bool :=
  c == ' ' || c == '\t' || c == '\n' || c == '\r' || c == '\x0b' || c == '\x0c'

/-- Python str.lower on one character (ASCII case mapping). -/
def pyToLower (c : Char) : Char :=
  if 65 ≤ c.toNat ∧ c.toNat ≤ 90 then Char.ofNat (c.toNat + 32) else c

/-- Python str.upper on one character (ASCII case mapping). -/
def pyToUpper (c : Char) : Char :=
  if 97 ≤ c.toNat ∧ c.toNat ≤ 122 then Char.ofNat (c.toNat - 32) else c

/-- Python str.lower. -/
def pyLower (s : String) : String := ⟨s.data.map pyToLower⟩

/-- Both-ends whitespace trimming on the character list. -/
def stripChars (l : List Char) : List Char :=
  ((l.dropWhile pySpaceChar).reverse.dropWhile pySpaceChar).reverse

/-- Python str.strip with no argument. -/
def pyStrip (s : String) : String := ⟨stripChars s.data⟩

/-- hasPre p l holds when p is a leading segment of l. -/
def hasPre : List Char → List Char → Bool
  | [], _ => true
  | _ :: _, [] => false
  | a :: as, b :: bs => a == b && hasPre as bs

/-- occursIn sub l holds when sub occurs contiguously inside l. -/
def occursIn (sub : List Char) : List Char → Bool
  | [] => hasPre sub []
  | c :: cs => hasPre sub (c :: cs) || occursIn sub cs

/-- pyIn sub s models the Python expression sub in s. -/
def pyIn (sub s : String) : Bool := occursIn sub.data s.data

/-- One pass of Python str.title: the boolean records whether the previous
character was cased (for ASCII, alphabetic). -/
def titleChars : Bool → List Char → List Char
  | _, [] => []
  | prevCased, c :: cs =>
    (if c.isAlpha then (if prevCased then pyToLower c else pyToUpper c) else c) ::
      titleChars c.isAlpha cs

/-- Python str.title (ASCII). -/
def pyTitle (s : String) : String := ⟨titleChars false s.data⟩

/-- Insert-or-overwrite for an association list keyed by strings, with the
update-in-place ordering of a Python dict assignment (and of SQLite
INSERT OR REPLACE, whose row order the cache never observes). -/
def upsert {α : Type} (l : List (String × α)) (k : String) (v : α) :
    List (String × α) :=
  if l.any (fun p => p.1 == k) then
    l.map (fun p => if p.1 == k then (k, v) else p)
  else l ++ [(k, v)]

/-! ## Character-level lemmas -/

theorem toNat_ofNat_small {n : ℕ} (h : n < 55296) : (Char.ofNat n).toNat = n := by
  have hv : n.isValidChar := Or.inl h
  simp [Char.ofNat, hv, Char.ofNatAux, Char.toNat, UInt32.toNat]

theorem char_eq_of_toNat_eq {a b : Char} (h : a.toNat = b.toNat) : a = b :=
  Char.ext (UInt32.ext h)

theorem pySpaceChar_iff {c : Char} :
    pySpaceChar c = true ↔
      (c.toNat = 32 ∨ c.toNat = 9 ∨ c.toNat = 10 ∨ c.toNat = 13 ∨
        c.toNat = 11 ∨ c.toNat = 12) := by
  unfold pySpaceChar
  simp only [Bool.or_eq_true, beq_iff_eq]
  constructor
  · rintro (((((h | h) | h) | h) | h) | h) <;> subst h <;> simp [Char.toNat]
  · rintro (h | h | h | h | h | h)
    · exact Or.inl (Or.inl (Or.inl (Or.inl (Or.inl (char_eq_of_toNat_eq h)))))
    · exact Or.inl (Or.inl (Or.inl (Or.inl (Or.inr (char_eq_of_toNat_eq h)))))
    · exact Or.inl (Or.inl (Or.inl (Or.inr (char_eq_of_toNat_eq h))))
    · exact Or.inl (Or.inl (Or.inr (char_eq_of_toNat_eq h)))
    · exact Or.inl (Or.inr (char_eq_of_toNat_eq h))
    · exact Or.inr (char_eq_of_toNat_eq h)

theorem pyToLower_toNat_of_upper {c : Char} (h : 65 ≤ c.toNat ∧ c.toNat ≤ 90) :
    (pyToLower c).toNat = c.toNat + 32 := by
  rw [pyToLower, if_pos h]
  exact toNat_ofNat_small (by omega)

theorem pyToLower_of_not_upper {c : Char} (h : ¬ (65 ≤ c.toNat ∧ c.toNat ≤ 90)) :
    pyToLower c = c := by
  rw [pyToLower, if_neg h]

theorem pySpaceChar_pyToLower (c : Char) :
    pySpaceChar (pyToLower c) = pySpaceChar c := by
  by_cases h : 65 ≤ c.toNat ∧ c.toNat ≤ 90
  · have h1 := pyToLower_toNat_of_upper h
    rw [Bool.eq_iff_iff, pySpaceChar_iff, pySpaceChar_iff, h1]
    omega
  · rw [pyToLower_of_not_upper h]

theorem pyToLower_idem (c : Char) : pyToLower (pyToLower c) = pyToLower c := by
  by_cases h : 65 ≤ c.toNat ∧ c.toNat ≤ 90
  · have h1 := pyToLower_toNat_of_upper h
    apply pyToLower_of_not_upper
    omega
  · rw [pyToLower_of_not_upper h]
    exact pyToLower_of_not_upper h

/-! ## String-level lemmas: lower and strip commute, and both are idempotent. -/

theorem dropWhile_map_pyToLower (m : List Char) :
    (m.map pyToLower).dropWhile pySpaceChar =
      (m.dropWhile pySpaceChar).map pyToLower := by
  rw [List.dropWhile_map]
  have hc : pySpaceChar ∘ pyToLower = pySpaceChar := funext pySpaceChar_pyToLower
  rw [hc]

theorem stripChars_map_pyToLower (l : List Char) :
    stripChars (l.map pyToLower) = (stripChars l).map pyToLower := by
  unfold stripChars
  rw [dropWhile_map_pyToLower, ← List.map_reverse, dropWhile_map_pyToLower,
    List.map_reverse]

theorem pyLower_pyStrip (s : String) : pyLower (pyStrip s) = pyStrip (pyLower s) :=
  congrArg String.mk (stripChars_map_pyToLower s.data).symm

theorem pyLower_idem (s : String) : pyLower (pyLower s) = pyLower s := by
  apply congrArg String.mk
  show (s.data.map pyToLower).map pyToLower = s.data.map pyToLower
  rw [List.map_map]
  exact List.map_congr_left (fun c _ => pyToLower_idem c)

theorem head_not_space_of_dropWhile_eq {p : Char → Bool} {c : Char} {cs l : List Char}
    (h : l.dropWhile p = c :: cs) : p c = false := by
  have := List.head?_dropWhile_not p l
  rw [h] at this
  simpa using this

theorem dropWhile_eq_self_of_head {p : Char → Bool} :
    ∀ {l : List Char}, (∀ c cs, l = c :: cs → p c = false) → l.dropWhile p = l
  | [], _ => rfl
  | c :: cs, h => by
    rw [List.dropWhile_cons, if_neg]
    simp [h c cs rfl]

theorem stripChars_idem (l : List Char) : stripChars (stripChars l) = stripChars l := by
  set p := pySpaceChar
  set a := l.dropWhile p with ha
  have hfrontA : a.dropWhile p = a := List.dropWhile_idempotent p l
  set b := (a.reverse.dropWhile p).reverse with hb
  have hrevB : b.reverse = a.reverse.dropWhile p := by
    rw [hb, List.reverse_reverse]
  have hPreB : b <+: a := by
    rw [← List.reverse_suffix, hrevB]
    exact List.dropWhile_suffix p
  have hfrontB : b.dropWhile p = b := by
    apply dropWhile_eq_self_of_head
    intro c cs hbc
    rcases hPreB with ⟨t, ht⟩
    have : a = c :: (cs ++ t) := by rw [← ht, hbc]; simp
    exact head_not_space_of_dropWhile_eq (this ▸ hfrontA)
  have hbackB : b.reverse.dropWhile p = b.reverse := by
    rw [hrevB]
    exact List.dropWhile_idempotent p a.reverse
  show ((b.dropWhile p).reverse.dropWhile p).reverse = b
  rw [hfrontB, hbackB, List.reverse_reverse]

theorem pyStrip_idem (s : String) : pyStrip (pyStrip s) = pyStrip s :=
  congrArg String.mk (stripChars_idem s.data)

/-! ## The closed taxonomy of RobustCategoryGenerator (robust_categorization.py)
The insertion order of the Python dict valid_categories is preserved, since
the fuzzy lookup table built from it is iterated in that order. -/

def validCategories : List (String × List String) :=
  [ ("Clothing",
      ["Dresses", "Tops", "Bottoms", "Outerwear", "Activewear", "Sleepwear",
       "Underwear", "Swimwear", "Accessories", "Uniforms", "Costumes"]),
    ("Footwear",
      ["Athletic Shoes", "Casual Shoes", "Dress Shoes", "Boots", "Sandals",
       "Heels", "Flats", "Slippers", "Specialty Footwear"]),
    ("Beauty",
      ["Makeup", "Skincare", "Hair Care", "Fragrances", "Nail Care",
       "Bath & Body", "Tools & Accessories", "Men\x27s Grooming"]),
    ("Electronics",
      ["Mobile Phones", "Computers", "Audio & Video", "Gaming", "Cameras",
       "Wearables", "Smart Home", "Accessories", "Components"]),
    ("Home & Garden",
      ["Furniture", "Decor", "Kitchen & Dining", "Bedding & Bath", "Storage",
       "Lighting", "Garden & Outdoor", "Cleaning Supplies", "Tools"]),
    ("Sports & Outdoors",
      ["Exercise Equipment", "Outdoor Gear", "Sports Equipment", "Athletic Wear",
       "Water Sports", "Winter Sports", "Team Sports", "Fitness Accessories"]),
    ("Toys & Games",
      ["Action Figures", "Dolls", "Board Games", "Educational Toys", "Electronic Toys",
       "Outdoor Toys", "Arts & Crafts", "Collectibles", "Baby Toys"]),
    ("Books & Media",
      ["Books", "Movies & TV", "Music", "Video Games", "Magazines",
       "Educational Materials", "Digital Media"]),
    ("Automotive",
      ["Parts & Accessories", "Tools & Equipment", "Car Care", "Electronics",
       "Interior Accessories", "Exterior Accessories", "Tires & Wheels"]),
    ("Health & Personal Care",
      ["Vitamins & Supplements", "Medical Supplies", "Personal Care", "Oral Care",
       "Vision Care", "First Aid", "Mobility Aids"]),
    ("Jewelry & Watches",
      ["Fine Jewelry", "Fashion Jewelry", "Watches", "Accessories",
       "Wedding & Engagement", "Men\x27s Jewelry"]),
    ("Baby & Kids",
      ["Baby Clothing", "Baby Gear", "Diapers & Feeding", "Toys",
       "Kids Clothing", "Kids Furniture", "Safety Products"]) ]

/-- Membership of a (category, subcategory) pair in the fixed taxonomy. -/
def inTaxonomyB (c s : String) : Bool :=
  match validCategories.find? (fun p => p.1 == c) with
  | some p => p.2.contains s
  | none => false

/-- Whether c is one of the twelve category names. -/
def isValidCatB (c : String) : Bool := validCategories.any (fun p => p.1 == c)

/-- The subcategory list of a category (empty for a name outside the taxonomy;
Python would raise KeyError there, and no caller reaches that case). -/
def subcatsOf (c : String) : List String :=
  ((validCategories.find? (fun p => p.1 == c)).map (fun p => p.2)).getD []

/-- A value of the category_lookup dict: either a bare category name (from a
category key) or a (category, subcategory) pair (from a subcategory key). -/
inductive LookupVal : Type
  | cat (c : String)
  | sub (c s : String)
deriving DecidableEq

/-- The key/value assignments performed while building category_lookup, in
program order: for each category, its lowered name, then its lowered
subcategory names. Later assignments to an equal key overwrite. -/
def entriesOf (p : String × List String) : List (String × LookupVal) :=
  (pyLower p.1, LookupVal.cat p.1) :: p.2.map (fun s => (pyLower s, LookupVal.sub p.1 s))

def allEntries : List (String × LookupVal) :=
  (validCategories.map entriesOf).flatten

/-- category_lookup as a Python dict: association list with unique keys,
insertion-ordered, later assignments overwriting in place. -/
def categoryLookup : List (String × LookupVal) :=
  allEntries.foldl (fun acc e => upsert acc e.1 e.2) []

def lookupGet (k : String) : Option LookupVal :=
  (categoryLookup.find? (fun p => p.1 == k)).map (fun p => p.2)

/-- The second loop of find_closest_category: scan the lookup table in dict
order, and on entries holding a bare category name test substring
containment both ways against the query. -/
def scanLookup (cl : String) : Option String :=
  categoryLookup.findSome? (fun p =>
    match p.2 with
    | LookupVal.cat v => if pyIn cl p.1 || pyIn p.1 cl then some v else none
    | LookupVal.sub _ _ => none)

/-- The curated keyword → category table of find_closest_category. -/
def keyword_mapping : List (String × String) :=
  [ ("cloth", "Clothing"), ("apparel", "Clothing"), ("fashion", "Clothing"),
    ("shoe", "Footwear"), ("boot", "Footwear"), ("sneaker", "Footwear"),
    ("makeup", "Beauty"), ("cosmetic", "Beauty"), ("skincare", "Beauty"),
    ("electronic", "Electronics"), ("tech", "Electronics"), ("gadget", "Electronics"),
    ("furniture", "Home & Garden"), ("decor", "Home & Garden"), ("kitchen", "Home & Garden"),
    ("sport", "Sports & Outdoors"), ("fitness", "Sports & Outdoors"), ("exercise", "Sports & Outdoors"),
    ("toy", "Toys & Games"), ("game", "Toys & Games"), ("doll", "Toys & Games"),
    ("book", "Books & Media"), ("movie", "Books & Media"), ("music", "Books & Media"),
    ("car", "Automotive"), ("auto", "Automotive"), ("vehicle", "Automotive"),
    ("health", "Health & Personal Care"), ("medical", "Health & Personal Care"),
    ("jewelry", "Jewelry & Watches"), ("watch", "Jewelry & Watches"), ("ring", "Jewelry & Watches"),
    ("baby", "Baby & Kids"), ("kid", "Baby & Kids"), ("infant", "Baby & Kids") ]

/-- RobustCategoryGenerator.find_closest_category: exact dict hit (only when
the stored value is a bare category name), then containment scan, then
keyword table, else none. -/
def keywordFind (cl : String) : Option String :=
  keyword_mapping.findSome? (fun kv => if pyIn kv.1 cl then some kv.2 else none)

def find_closest_category (category : String) : Option String :=
  match lookupGet (pyLower category) with
  | some (LookupVal.cat c) => some c
  | _ =>
    match scanLookup (pyLower category) with
    | some c => some c
    | none => keywordFind (pyLower category)

/-- RobustCategoryGenerator.find_closest_subcategory: exact lowered match,
then containment both ways, else the first subcategory of the category. -/
def find_closest_subcategory (subcategory category : String) : String :=
  match (subcatsOf category).find? (fun sc => pyLower subcategory == pyLower sc) with
  | some sc => sc
  | none =>
    match (subcatsOf category).find? (fun sc =>
        pyIn (pyLower subcategory) (pyLower sc) ||
          pyIn (pyLower sc) (pyLower subcategory)) with
    | some sc => sc
    | none => (subcatsOf category).headD ""

/-- RobustCategoryGenerator.validate_and_correct_categories. Python returns
either two strings or (None, None); the unused title argument is dropped. -/
def validate_and_correct_categories (category subcategory : String) :
    Option String × Option String :=
  match (validCategories.find?
      (fun p => p.1 == pyTitle (pyStrip category))).map (fun p => p.2) with
  | some subs =>
    if subs.contains (pyTitle (pyStrip subcategory)) then
      (some (pyTitle (pyStrip category)), some (pyTitle (pyStrip subcategory)))
    else
      (some (pyTitle (pyStrip category)),
        some (find_closest_subcategory (pyTitle (pyStrip subcategory))
          (pyTitle (pyStrip category))))
  | none =>
    match find_closest_category (pyTitle (pyStrip category)) with
    | some best =>
      (some best, some (find_closest_subcategory (pyTitle (pyStrip subcategory)) best))
    | none => (none, none)

/-- RobustCategoryGenerator.extract_single_category: first taxonomy category
whose lowered name occurs in the lowered text. -/
def extract_single_category (text : String) : Option String :=
  (validCategories.find? (fun p => pyIn (pyLower p.1) (pyLower text))).map (fun p => p.1)

/-- The keyword rules of RobustCategoryGenerator.get_fallback_category. -/
def fallback_rules : List (List String × String × String) :=
  [ (["dress", "shirt", "pants", "jacket", "coat", "sweater", "blouse"], ("Clothing", "Tops")),
    (["shoe", "boot", "sneaker", "sandal", "heel"], ("Footwear", "Casual Shoes")),
    (["perfume", "cologne", "fragrance", "scent"], ("Beauty", "Fragrances")),
    (["makeup", "lipstick", "foundation", "mascara"], ("Beauty", "Makeup")),
    (["phone", "iphone", "samsung", "mobile"], ("Electronics", "Mobile Phones")),
    (["laptop", "computer", "macbook", "pc"], ("Electronics", "Computers")),
    (["book", "novel", "magazine"], ("Books & Media", "Books")),
    (["watch", "clock", "timepiece"], ("Jewelry & Watches", "Watches")),
    (["ring", "necklace", "bracelet", "earring"], ("Jewelry & Watches", "Fine Jewelry")),
    (["bag", "purse", "handbag", "backpack"], ("Clothing", "Accessories")) ]

/-- RobustCategoryGenerator.get_fallback_category: first rule whose keyword
occurs in the lowered title wins; the ultimate fallback is fixed. The third
component is the is_valid flag, always false here. -/
def get_fallback_category (title : String) : String × String × Bool :=
  match fallback_rules.findSome? (fun r =>
      if r.1.any (fun k => pyIn k (pyLower title)) then some r.2 else none) with
  | some (c, s) => (c, s, false)
  | none => ("Clothing", "Accessories", false)

/-! ## The separator patterns of parse_and_validate_response
Each of the four regexes has the shape class+ sep class+ with class =
[A-Za-z\s&] (the \s* around the separators of patterns 2 to 4 is absorbed:
\s is contained in the class, and both captured groups are stripped right
after extraction). re.search with greedy + therefore matches around the
first separator occurrence that is immediately preceded and followed by at
least one class character, capturing the maximal class runs on both sides. -/

def classChar (c : Char) : Bool :=
  (65 ≤ c.toNat ∧ c.toNat ≤ 90 : Bool) || (97 ≤ c.toNat ∧ c.toNat ≤ 122 : Bool) ||
    c == '&' || pySpaceChar c

/-- Left-to-right scan: run is the reversed class-run read so far. When a
separator follows a nonempty run and a class character follows it, the two
maximal runs are captured; otherwise the scan restarts after that character. -/
def reSearchAux (sep : Char) (run : List Char) : List Char → Option (List Char × List Char)
  | [] => none
  | c :: cs =>
    if classChar c then reSearchAux sep (c :: run) cs
    else if c == sep && !run.isEmpty && !(cs.takeWhile classChar).isEmpty then
      some (run.reverse, cs.takeWhile classChar)
    else reSearchAux sep [] cs

/-- re.search for one of the four separator patterns, returning the two
captured groups. -/
def reSearchSep (sep : Char) (l : List Char) : Option (List Char × List Char) :=
  reSearchAux sep [] l

/-- The response prefixes parse_and_validate_response strips, in order. Each
is tested once against the lowered current text; on a hit the prefix length
is cut from the original text, which is then re-stripped. -/
def leadingMarkers : List String :=
  ["category:", "category ", "answer:", "result:",
   "the category is", "this product is", "product:"]

def stripMarkers (cleaned : String) : String :=
  leadingMarkers.foldl (fun cl p =>
    if hasPre p.data (pyLower cl).data then pyStrip ⟨cl.data.drop p.data.length⟩
    else cl) cleaned

/-- One pattern attempt: extract via the separator regex, strip the groups,
validate and correct them, and accept only a truthy pair (Python tests the
two Optional strings for truthiness, so empty strings are also rejected). -/
def tryPattern (sep : Char) (cleaned : String) : Option (String × String) :=
  match reSearchSep sep cleaned.data with
  | none => none
  | some (g1, g2) =>
    match validate_and_correct_categories (pyStrip ⟨g1⟩) (pyStrip ⟨g2⟩) with
    | (some vc, some vs) =>
      if !(vc == "") && !(vs == "") then some (vc, vs) else none
    | _ => none

/-- The pattern loop: later patterns are still tried when an earlier pattern
matched but its extraction failed validation. -/
def tryPatterns (cleaned : String) : Option (String × String) :=
  ['|', ':', '-', '>'].findSome? (fun sep => tryPattern sep cleaned)

/-- RobustCategoryGenerator.parse_and_validate_response. The third component
is the is_valid flag: true exactly on the pattern-validation path. -/
def parse_and_validate_response (response_text title : String) :
    String × String × Bool :=
  match tryPatterns (stripMarkers (pyStrip response_text)) with
  | some (c, s) => (c, s, true)
  | none =>
    match extract_single_category (stripMarkers (pyStrip response_text)) with
    | some cat => (cat, (subcatsOf cat).headD "", false)
    | none => get_fallback_category title

/-! ## The taxonomy invariant of the robust parser -/

theorem nonempty_subcats :
    validCategories.all (fun p => !p.2.isEmpty) = true := by decide

theorem keyword_mapping_valid :
    keyword_mapping.all (fun kv => isValidCatB kv.2) = true := by decide

theorem fallback_rules_valid :
    fallback_rules.all (fun r => inTaxonomyB r.2.1 r.2.2) = true := by decide

theorem default_fallback_valid : inTaxonomyB "Clothing" "Accessories" = true := by decide

theorem mem_upsert {α : Type} {l : List (String × α)} {k : String} {v : α}
    {p : String × α} (h : p ∈ upsert l k v) : p ∈ l ∨ p = (k, v) := by
  unfold upsert at h
  split at h
  · rcases List.mem_map.mp h with ⟨q, hq, he⟩
    by_cases hk : (q.1 == k) = true
    · right; rw [if_pos hk] at he; exact he.symm
    · left; rw [if_neg hk] at he; exact he ▸ hq
  · rcases List.mem_append.mp h with hl | hr
    · exact Or.inl hl
    · exact Or.inr (List.mem_singleton.mp hr)

/-- Property every lookup-table value must satisfy: bare category values name
a taxonomy category. -/
def entryOK (p : String × LookupVal) : Prop :=
  ∀ v, p.2 = LookupVal.cat v → isValidCatB v = true

theorem foldl_upsert_ok :
    ∀ (es : List (String × LookupVal)) (acc : List (String × LookupVal)),
      (∀ q ∈ acc, entryOK q) → (∀ e ∈ es, entryOK e) →
      ∀ p ∈ es.foldl (fun a e => upsert a e.1 e.2) acc, entryOK p := by
  intro es
  induction es with
  | nil => intro acc hacc _ p hp; exact hacc p hp
  | cons e es ih =>
    intro acc hacc hes p hp
    refine ih (upsert acc e.1 e.2) ?_ (fun q hq => hes q (List.mem_cons_of_mem e hq)) p hp
    intro q hq
    rcases mem_upsert hq with hin | heq
    · exact hacc q hin
    · subst heq; exact hes e (List.mem_cons_self e es)

theorem allEntries_ok : ∀ e ∈ allEntries, entryOK e := by
  intro e he
  rcases List.mem_flatten.mp he with ⟨es, hes, hein⟩
  rcases List.mem_map.mp hes with ⟨cp, hcp, rfl⟩
  unfold entriesOf at hein
  rcases List.mem_cons.mp hein with rfl | hsub
  · intro v hv
    cases hv
    exact List.any_eq_true.mpr ⟨cp, hcp, beq_self_eq_true cp.1⟩
  · rcases List.mem_map.mp hsub with ⟨s, _, rfl⟩
    intro v hv
    cases hv

theorem categoryLookup_ok : ∀ p ∈ categoryLookup, entryOK p :=
  foldl_upsert_ok allEntries [] (by intro q hq; cases hq) allEntries_ok

attribute [irreducible] categoryLookup

theorem find?_validCategories {c : String} (h : isValidCatB c = true) :
    ∃ q, validCategories.find? (fun p => p.1 == c) = some q ∧
      q ∈ validCategories ∧ q.1 = c := by
  rcases List.any_eq_true.mp h with ⟨q0, hq0, hq0c⟩
  have hsome : (validCategories.find? (fun p => p.1 == c)).isSome = true := by
    rw [List.find?_isSome]
    exact ⟨q0, hq0, hq0c⟩
  rcases Option.isSome_iff_exists.mp hsome with ⟨q, hq⟩
  have hbeq := List.find?_some hq
  exact ⟨q, hq, List.mem_of_find?_eq_some hq, eq_of_beq hbeq⟩

theorem subcatsOf_spec {c : String} (h : isValidCatB c = true) :
    subcatsOf c ≠ [] ∧ ∀ s ∈ subcatsOf c, inTaxonomyB c s = true := by
  rcases find?_validCategories h with ⟨q, hqfind, hqmem, hqc⟩
  have hsub : subcatsOf c = q.2 := by
    unfold subcatsOf; rw [hqfind]; rfl
  constructor
  · rw [hsub]
    have hne : (!q.2.isEmpty) = true := List.all_eq_true.mp nonempty_subcats q hqmem
    simp only [Bool.not_eq_true'] at hne
    exact fun he => by simp [he] at hne
  · intro s hs
    unfold inTaxonomyB
    rw [hqfind]
    rw [hsub] at hs
    exact List.elem_iff.mpr hs

theorem find_closest_subcategory_mem {sc c : String} (h : subcatsOf c ≠ []) :
    find_closest_subcategory sc c ∈ subcatsOf c := by
  unfold find_closest_subcategory
  cases h1 : (subcatsOf c).find? (fun x => pyLower sc == pyLower x) with
  | some s => simpa using List.mem_of_find?_eq_some h1
  | none =>
    dsimp only
    cases h2 : (subcatsOf c).find? (fun x =>
        pyIn (pyLower sc) (pyLower x) || pyIn (pyLower x) (pyLower sc)) with
    | some s => simpa using List.mem_of_find?_eq_some h2
    | none =>
      dsimp only
      cases h3 : subcatsOf c with
      | nil => exact absurd h3 h
      | cons a l => simp

theorem scanLookup_valid {cl cat : String} (h : scanLookup cl = some cat) :
    isValidCatB cat = true := by
  rcases List.exists_of_findSome?_eq_some h with ⟨p, hp, hpf⟩
  obtain ⟨k, lv⟩ := p
  cases lv with
  | cat v =>
    dsimp only at hpf
    have hok : entryOK (k, LookupVal.cat v) := categoryLookup_ok _ hp
    have hval : isValidCatB v = true := hok v rfl
    split at hpf
    · exact (Option.some.inj hpf) ▸ hval
    · exact Option.noConfusion hpf
  | sub a b =>
    dsimp only at hpf
    exact Option.noConfusion hpf

theorem keywordFind_valid {cl cat : String} (h : keywordFind cl = some cat) :
    isValidCatB cat = true := by
  rcases List.exists_of_findSome?_eq_some h with ⟨kv, hkv, hkvf⟩
  have hval : isValidCatB kv.2 = true := List.all_eq_true.mp keyword_mapping_valid kv hkv
  split at hkvf
  · exact (Option.some.inj hkvf) ▸ hval
  · exact Option.noConfusion hkvf

theorem scan_keyword_valid {cl cat : String}
    (h : (match scanLookup cl with
          | some c => some c
          | none => keywordFind cl) = some cat) :
    isValidCatB cat = true := by
  cases hs : scanLookup cl with
  | some c =>
    rw [hs] at h
    dsimp only at h
    exact (Option.some.inj h) ▸ scanLookup_valid hs
  | none =>
    rw [hs] at h
    dsimp only at h
    exact keywordFind_valid h

theorem find_closest_category_valid {c cat : String}
    (h : find_closest_category c = some cat) : isValidCatB cat = true := by
  unfold find_closest_category at h
  cases hget : lookupGet (pyLower c) with
  | some lv =>
    cases lv with
    | cat v =>
      rw [hget] at h
      dsimp only at h
      have hv : v = cat := Option.some.inj h
      unfold lookupGet at hget
      rcases Option.map_eq_some'.mp hget with ⟨p, hfind, hp2⟩
      exact hv ▸ categoryLookup_ok p (List.mem_of_find?_eq_some hfind) v hp2
    | sub a b =>
      rw [hget] at h
      dsimp only at h
      exact scan_keyword_valid h
  | none =>
    rw [hget] at h
    dsimp only at h
    exact scan_keyword_valid h

theorem validate_and_correct_in_taxonomy {a b c s : String}
    (h : validate_and_correct_categories a b = (some c, some s)) :
    inTaxonomyB c s = true := by
  unfold validate_and_correct_categories at h
  cases hf : (validCategories.find? (fun p => p.1 == pyTitle (pyStrip a))).map
      (fun p => p.2) with
  | some subs =>
    rw [hf] at h
    dsimp only at h
    rcases Option.map_eq_some'.mp hf with ⟨q, hqfind, hq2⟩
    have hbeq := List.find?_some hqfind
    have hvalid : isValidCatB (pyTitle (pyStrip a)) = true :=
      List.any_eq_true.mpr ⟨q, List.mem_of_find?_eq_some hqfind, hbeq⟩
    by_cases hc : subs.contains (pyTitle (pyStrip b)) = true
    · rw [if_pos hc] at h
      injection h with h1 h2
      obtain rfl := Option.some.inj h1
      obtain rfl := Option.some.inj h2
      unfold inTaxonomyB
      rw [hqfind]
      dsimp only
      rw [hq2]
      exact hc
    · rw [if_neg hc] at h
      injection h with h1 h2
      obtain rfl := Option.some.inj h1
      obtain rfl := Option.some.inj h2
      exact (subcatsOf_spec hvalid).2 _
        (find_closest_subcategory_mem (subcatsOf_spec hvalid).1)
  | none =>
    rw [hf] at h
    dsimp only at h
    cases hfc : find_closest_category (pyTitle (pyStrip a)) with
    | some best =>
      rw [hfc] at h
      dsimp only at h
      injection h with h1 h2
      obtain rfl := Option.some.inj h1
      obtain rfl := Option.some.inj h2
      have hvalid := find_closest_category_valid hfc
      exact (subcatsOf_spec hvalid).2 _
        (find_closest_subcategory_mem (subcatsOf_spec hvalid).1)
    | none =>
      rw [hfc] at h
      dsimp only at h
      injection h with h1 _
      exact Option.noConfusion h1

theorem get_fallback_category_spec {t c s : String} {b : Bool}
    (h : get_fallback_category t = (c, s, b)) :
    inTaxonomyB c s = true ∧ b = false := by
  unfold get_fallback_category at h
  cases hfs : fallback_rules.findSome? (fun r =>
      if r.1.any (fun k => pyIn k (pyLower t)) then some r.2 else none) with
  | some cs =>
    rw [hfs] at h
    obtain ⟨c0, s0⟩ := cs
    dsimp only at h
    injection h with h1 h2
    injection h2 with h2 h3
    rw [← h1, ← h2, ← h3]
    refine ⟨?_, rfl⟩
    rcases List.exists_of_findSome?_eq_some hfs with ⟨r, hr, hrf⟩
    have hval : inTaxonomyB r.2.1 r.2.2 = true :=
      List.all_eq_true.mp fallback_rules_valid r hr
    have hcs : r.2 = (c0, s0) := by
      split at hrf
      · exact Option.some.inj hrf
      · exact Option.noConfusion hrf
    rw [hcs] at hval
    exact hval
  | none =>
    rw [hfs] at h
    dsimp only at h
    injection h with h1 h2
    injection h2 with h2 h3
    rw [← h1, ← h2, ← h3]
    exact ⟨default_fallback_valid, rfl⟩

theorem headD_mem {α : Type} {l : List α} (h : l ≠ []) (d : α) : l.headD d ∈ l := by
  cases l with
  | nil => exact absurd rfl h
  | cons a t => simp

theorem tryPattern_in_taxonomy {sep : Char} {cleaned : String} {c s : String}
    (h : tryPattern sep cleaned = some (c, s)) : inTaxonomyB c s = true := by
  unfold tryPattern at h
  cases hre : reSearchSep sep cleaned.data with
  | none => rw [hre] at h; exact Option.noConfusion h
  | some g =>
    obtain ⟨g1, g2⟩ := g
    rw [hre] at h
    dsimp only at h
    cases hvv : validate_and_correct_categories (pyStrip ⟨g1⟩) (pyStrip ⟨g2⟩) with
    | mk o1 o2 =>
      rw [hvv] at h
      cases o1 with
      | none =>
        cases o2 with
        | none => exact Option.noConfusion h
        | some vs => exact Option.noConfusion h
      | some vc =>
        cases o2 with
        | none => exact Option.noConfusion h
        | some vs =>
          dsimp only at h
          split at h
          · injection h with h1
            injection h1 with h1 h2
            rw [← h1, ← h2]
            exact validate_and_correct_in_taxonomy hvv
          · exact Option.noConfusion h

theorem tryPatterns_in_taxonomy {cleaned : String} {c s : String}
    (h : tryPatterns cleaned = some (c, s)) : inTaxonomyB c s = true := by
  rcases List.exists_of_findSome?_eq_some h with ⟨sep, _, hsep⟩
  exact tryPattern_in_taxonomy hsep

theorem extract_single_category_valid {text cat : String}
    (h : extract_single_category text = some cat) : isValidCatB cat = true := by
  unfold extract_single_category at h
  rcases Option.map_eq_some'.mp h with ⟨q, hqfind, hq1⟩
  exact List.any_eq_true.mpr
    ⟨q, List.mem_of_find?_eq_some hqfind, hq1 ▸ beq_self_eq_true q.1⟩

/-- Any result of parse_and_validate_response lies in the fixed taxonomy, on
every path: pattern validation, single-category extraction, and fallback. -/
theorem parse_result_in_taxonomy {response title c s : String} {b : Bool}
    (h : parse_and_validate_response response title = (c, s, b)) :
    inTaxonomyB c s = true := by
  unfold parse_and_validate_response at h
  generalize stripMarkers (pyStrip response) = cleaned at h
  split at h
  next c0 s0 htp =>
    injection h with h1 h2
    injection h2 with h2 h3
    rw [← h1, ← h2]
    exact tryPatterns_in_taxonomy htp
  next htp =>
    split at h
    next cat hex =>
      injection h with h1 h2
      injection h2 with h2 h3
      rw [← h1, ← h2]
      have hvalid := extract_single_category_valid hex
      exact (subcatsOf_spec hvalid).2 _ (headD_mem (subcatsOf_spec hvalid).1 "")
    next hex =>
      exact (get_fallback_category_spec h).1

/-- Claim C1 (amended): every (category, subcategory) pair returned by
RobustCategoryGenerator.parse_and_validate_response, on all of its paths
(separator-pattern validation with fuzzy correction, single-category
extraction, keyword fallback, ultimate fallback), is a member of the fixed
closed taxonomy valid_categories. -/
theorem robust_results_in_taxonomy (response title : String) :
    inTaxonomyB (parse_and_validate_response response title).1
      (parse_and_validate_response response title).2.1 = true := by
  rcases hp : parse_and_validate_response response title with ⟨c, s, b⟩
  exact parse_result_in_taxonomy hp

/-! ## OptimizedCategoryGenerator (ai_optimization.py)
The SQLite exact cache is a key/value table keyed by the MD5 hex digest of
the normalized title; the MD5 digest, the sentence-embedding model and the
LLM are external and become oracle parameters. -/

def electronics_keywords : List (String × String × String) :=
  [ ("phone", ("Electronics", "Mobile Phones")),
    ("tv", ("Electronics", "Televisions")),
    ("laptop", ("Electronics", "Computers")),
    ("headphones", ("Electronics", "Audio")),
    ("speaker", ("Electronics", "Audio")),
    ("camera", ("Electronics", "Cameras")),
    ("watch", ("Electronics", "Wearables")),
    ("tablet", ("Electronics", "Computers")) ]

def clothing_keywords : List (String × String × String) :=
  [ ("shirt", ("Clothing", "Shirts")),
    ("t-shirt", ("Clothing", "T-Shirts")),
    ("dress", ("Clothing", "Dresses")),
    ("jeans", ("Clothing", "Jeans")),
    ("shoes", ("Footwear", "Shoes")),
    ("boots", ("Footwear", "Boots")),
    ("sneakers", ("Footwear", "Sneakers")),
    ("jacket", ("Clothing", "Outerwear")),
    ("coat", ("Clothing", "Outerwear")) ]

def beauty_keywords : List (String × String × String) :=
  [ ("perfume", ("Beauty", "Fragrances")),
    ("makeup", ("Beauty", "Makeup")),
    ("lipstick", ("Beauty", "Makeup")),
    ("foundation", ("Beauty", "Makeup")),
    ("shampoo", ("Beauty", "Hair Care")),
    ("moisturizer", ("Beauty", "Skincare")),
    ("serum", ("Beauty", "Skincare")) ]

/-- OptimizedCategoryGenerator.rule_based_categorization: the three keyword
dicts are scanned in order, first hit wins. -/
def rule_based_categorization (title : String) : Option (String × String) :=
  (electronics_keywords ++ clothing_keywords ++ beauty_keywords).findSome?
    (fun r => if pyIn r.1 (pyLower title) then some r.2 else none)

/-- Claim C1 counterexample: the rule-based tier of
OptimizedCategoryGenerator maps the title "samsung tv" to
(Electronics, Televisions), and Televisions is not a registered Electronics
subcategory of the fixed taxonomy. -/
theorem rule_based_outside_taxonomy :
    rule_based_categorization "samsung tv" = some ("Electronics", "Televisions") ∧
      inTaxonomyB "Electronics" "Televisions" = false := by
  constructor
  · decide
  · decide

/-- External collaborators of OptimizedCategoryGenerator. -/
structure Oracles (Emb : Type) where
  md5 : String → String
  encode : String → Emb
  cos : Emb → Emb → ℚ
  llm : String → String × String

/-- Mutable state of OptimizedCategoryGenerator: the SQLite cache rows
(title_hash ↦ title, category, subcategory, confidence) and the in-memory
similarity index (title ↦ category, subcategory, embedding). -/
structure OptState (Emb : Type) where
  db : List (String × String × String × String × ℚ)
  category_cache : List (String × String × String × Emb)

/-- OptimizedCategoryGenerator.get_title_hash: digest of the lowered,
stripped title. -/
def get_title_hash (md5 : String → String) (title : String) : String :=
  md5 (pyStrip (pyLower title))

/-- OptimizedCategoryGenerator.get_cached_category: point lookup by key hash. -/
def get_cached_category {Emb : Type} (o : Oracles Emb) (st : OptState Emb)
    (title : String) : Option (String × String) :=
  (st.db.find? (fun p => p.1 == get_title_hash o.md5 title)).map
    (fun p => (p.2.2.1, p.2.2.2.1))

/-- OptimizedCategoryGenerator.cache_category: INSERT OR REPLACE keyed by the
title hash. -/
def cache_category {Emb : Type} (o : Oracles Emb) (st : OptState Emb)
    (title category subcategory : String) (confidence : ℚ) : OptState Emb :=
  { st with db := (upsert st.db (get_title_hash o.md5 title)
      (title, category, subcategory, confidence)) }

/-- OptimizedCategoryGenerator.find_similar_category: best cosine match over
the similarity index, admitted only at or above the threshold. -/
def find_similar_category {Emb : Type} (o : Oracles Emb)
    (cache : List (String × String × String × Emb)) (title : String)
    (threshold : ℚ) : Option (String × String) :=
  if cache.isEmpty then none
  else
    (cache.foldl (fun best e =>
      if best.1 < o.cos (o.encode title) e.2.2.2 ∧
          threshold ≤ o.cos (o.encode title) e.2.2.2 then
        (o.cos (o.encode title) e.2.2.2, some (e.2.1, e.2.2.1))
      else best) ((0 : ℚ), (none : Option (String × String)))).2

/-- OptimizedCategoryGenerator.get_category_with_optimizations, returning the
(category, subcategory, method) triple, the state after the call, and whether
the external LLM service was invoked. -/
def get_category_with_optimizations {Emb : Type} (o : Oracles Emb)
    (st : OptState Emb) (title : String) :
    (String × String × String) × OptState Emb × Bool :=
  match get_cached_category o st title with
  | some (c, sc) => ((c, sc, "exact_cache"), st, false)
  | none =>
    match find_similar_category o st.category_cache title (85/100) with
    | some (c, sc) =>
      ((c, sc, "similarity_cache"), cache_category o st title c sc (8/10), false)
    | none =>
      match rule_based_categorization title with
      | some (c, sc) =>
        ((c, sc, "rule_based"), cache_category o st title c sc (6/10), false)
      | none =>
        (((o.llm title).1, (o.llm title).2, "openai_api"),
          cache_category o
            { st with category_cache := (upsert st.category_cache title
                ((o.llm title).1, (o.llm title).2, o.encode title)) }
            title (o.llm title).1 (o.llm title).2 1, true)

/-! ## Cache behaviour of get_category_with_optimizations -/

theorem find?_map_overwrite {α : Type} (k : String) (v : α) :
    ∀ l : List (String × α), l.any (fun p => p.1 == k) = true →
      (l.map (fun p => if p.1 == k then (k, v) else p)).find?
        (fun p => p.1 == k) = some (k, v) := by
  intro l
  induction l with
  | nil => intro h; simp at h
  | cons p t ih =>
    intro hany
    by_cases hk : (p.1 == k) = true
    · simp only [List.map_cons, if_pos hk, List.find?_cons]
      rw [beq_self_eq_true k]
    · rw [Bool.not_eq_true] at hk
      have hfp : (if (p.1 == k) = true then (k, v) else p) = p := by
        rw [hk]; simp
      rw [List.map_cons, hfp, List.find?_cons, hk]
      apply ih
      simp only [List.any_cons, Bool.or_eq_true] at hany
      rcases hany with h1 | h2
      · rw [h1] at hk; exact Bool.noConfusion hk
      · exact h2

theorem find?_upsert_self {α : Type} (l : List (String × α)) (k : String) (v : α) :
    (upsert l k v).find? (fun p => p.1 == k) = some (k, v) := by
  unfold upsert
  split
  next hany => exact find?_map_overwrite k v l hany
  next hany =>
    rw [List.find?_append]
    have hnone : l.find? (fun p => p.1 == k) = none := by
      rw [List.find?_eq_none]
      intro x hx hpx
      exact hany (List.any_eq_true.mpr ⟨x, hx, hpx⟩)
    rw [hnone]
    simp [List.find?, beq_self_eq_true k]

/-- A write through cache_category is immediately visible to
get_cached_category for the same title. -/
theorem get_cached_after_cache {Emb : Type} (o : Oracles Emb) (st : OptState Emb)
    (title c sc : String) (conf : ℚ) :
    get_cached_category o (cache_category o st title c sc conf) title = some (c, sc) := by
  unfold get_cached_category cache_category
  rw [find?_upsert_self]
  rfl

/-- A cache hit short-circuits the whole tier stack. -/
theorem exact_hit_run {Emb : Type} (o : Oracles Emb) (st : OptState Emb)
    {title c sc : String} (h : get_cached_category o st title = some (c, sc)) :
    get_category_with_optimizations o st title = ((c, sc, "exact_cache"), st, false) := by
  unfold get_category_with_optimizations
  rw [h]

/-- Claim C2: the tiers of get_category_with_optimizations are consulted in
strict order (exact cache, similarity cache, rule table, LLM): a hit at any
tier returns that tier result and method without calling the external
service, and the external service is invoked exactly when all three earlier
tiers miss. -/
theorem tier_order_strict {Emb : Type} (o : Oracles Emb) (st : OptState Emb)
    (title : String) :
    (∀ c sc, get_cached_category o st title = some (c, sc) →
      get_category_with_optimizations o st title = ((c, sc, "exact_cache"), st, false))
  ∧ (∀ c sc, get_cached_category o st title = none →
      find_similar_category o st.category_cache title (85/100) = some (c, sc) →
      get_category_with_optimizations o st title =
        ((c, sc, "similarity_cache"), cache_category o st title c sc (8/10), false))
  ∧ (∀ c sc, get_cached_category o st title = none →
      find_similar_category o st.category_cache title (85/100) = none →
      rule_based_categorization title = some (c, sc) →
      get_category_with_optimizations o st title =
        ((c, sc, "rule_based"), cache_category o st title c sc (6/10), false))
  ∧ ((get_category_with_optimizations o st title).2.2 = true ↔
      (get_cached_category o st title = none ∧
       find_similar_category o st.category_cache title (85/100) = none ∧
       rule_based_categorization title = none)) := by
  refine ⟨?_, ?_, ?_, ?_⟩
  · intro c sc h
    exact exact_hit_run o st h
  · intro c sc h1 h2
    unfold get_category_with_optimizations
    rw [h1, h2]
  · intro c sc h1 h2 h3
    unfold get_category_with_optimizations
    rw [h1, h2, h3]
  · unfold get_category_with_optimizations
    cases h1 : get_cached_category o st title with
    | some p =>
      obtain ⟨c, sc⟩ := p
      simp [h1]
    | none =>
      cases h2 : find_similar_category o st.category_cache title (85/100) with
      | some p =>
        obtain ⟨c, sc⟩ := p
        simp [h2]
      | none =>
        cases h3 : rule_based_categorization title with
        | some p =>
          obtain ⟨c, sc⟩ := p
          simp [h3]
        | none => simp [h3]

/-- A concrete oracle bundle over a trivial embedding type. -/
def unitOracles : Oracles Unit :=
  ⟨fun s => s, fun _ => (), fun _ _ => 0, fun _ => ("Unknown", "Unknown")⟩

def emptyState : OptState Unit := ⟨[], []⟩

/-- Claim C2 witness: with empty caches, the title "Nike Air Max Running
Shoes" resolves at the rule tier (keyword "shoes") with method rule_based
and no external call. -/
theorem tier_order_strict_witness :
    get_category_with_optimizations unitOracles emptyState "Nike Air Max Running Shoes"
      = (("Footwear", "Shoes", "rule_based"),
         cache_category unitOracles emptyState "Nike Air Max Running Shoes"
           "Footwear" "Shoes" (6/10), false) :=
  (tier_order_strict unitOracles emptyState "Nike Air Max Running Shoes").2.2.1
    "Footwear" "Shoes" rfl rfl (by decide)

/-- Claim C9 (amended): re-running get_category_with_optimizations on the
same title against the state produced by the first run returns the same
(category, subcategory), does not call the external service, and leaves the
state unchanged — but reports method exact_cache, whatever tier produced the
first result. -/
theorem second_run_exact_cache {Emb : Type} (o : Oracles Emb) (st : OptState Emb)
    (title : String) :
    get_category_with_optimizations o
        (get_category_with_optimizations o st title).2.1 title
      = (((get_category_with_optimizations o st title).1.1,
          (get_category_with_optimizations o st title).1.2.1, "exact_cache"),
         (get_category_with_optimizations o st title).2.1, false) := by
  rcases hrun : get_category_with_optimizations o st title with ⟨r, st2, b⟩
  obtain ⟨c, sc, m⟩ := r
  have hcached : get_cached_category o st2 title = some (c, sc) := by
    unfold get_category_with_optimizations at hrun
    cases h1 : get_cached_category o st title with
    | some p =>
      obtain ⟨c0, sc0⟩ := p
      rw [h1] at hrun
      dsimp only at hrun
      injection hrun with hr hrest
      injection hrest with hst hb
      injection hr with e1 hr2
      injection hr2 with e2 e3
      rw [← hst, ← e1, ← e2]
      exact h1
    | none =>
      rw [h1] at hrun
      cases h2 : find_similar_category o st.category_cache title (85/100) with
      | some p =>
        obtain ⟨c0, sc0⟩ := p
        rw [h2] at hrun
        dsimp only at hrun
        injection hrun with hr hrest
        injection hrest with hst hb
        injection hr with e1 hr2
        injection hr2 with e2 e3
        rw [← hst, ← e1, ← e2]
        exact get_cached_after_cache o st title c0 sc0 (8/10)
      | none =>
        rw [h2] at hrun
        cases h3 : rule_based_categorization title with
        | some p =>
          obtain ⟨c0, sc0⟩ := p
          rw [h3] at hrun
          dsimp only at hrun
          injection hrun with hr hrest
          injection hrest with hst hb
          injection hr with e1 hr2
          injection hr2 with e2 e3
          rw [← hst, ← e1, ← e2]
          exact get_cached_after_cache o st title c0 sc0 (6/10)
        | none =>
          rw [h3] at hrun
          dsimp only at hrun
          injection hrun with hr hrest
          injection hrest with hst hb
          injection hr with e1 hr2
          injection hr2 with e2 e3
          rw [← hst, ← e1, ← e2]
          exact get_cached_after_cache o _ title (o.llm title).1 (o.llm title).2 1
  exact exact_hit_run o st2 hcached

/-- Claim C9 counterexample: the second run is not identical to the first as
a full result: with empty caches the title "shoes" first resolves with
method rule_based, while the warm second run reports method exact_cache. -/
theorem second_run_method_differs :
    (get_category_with_optimizations unitOracles
        (get_category_with_optimizations unitOracles emptyState "shoes").2.1
        "shoes").1
      ≠ (get_category_with_optimizations unitOracles emptyState "shoes").1 := by
  decide

/-! ## Claim C10: the cache key identifies titles up to trim and lowercase -/

theorem get_title_hash_normalized (md5 : String → String) (t : String) :
    get_title_hash md5 t = get_title_hash md5 (pyLower (pyStrip t)) := by
  unfold get_title_hash
  congr 1
  rw [pyLower_idem, pyLower_pyStrip, pyStrip_idem]

/-- Claim C10: get_title_hash coincides on any two titles that agree after
stripping surrounding whitespace and lowercasing; in particular the hash of
a title equals the hash of its normalized form, so exact-cache reads and
writes identify titles differing only in case or surrounding whitespace. -/
theorem title_hash_respects_normalization :
    (∀ md5 : String → String, ∀ t : String,
      get_title_hash md5 t = get_title_hash md5 (pyLower (pyStrip t)))
  ∧ (∀ md5 : String → String, ∀ t1 t2 : String,
      pyLower (pyStrip t1) = pyLower (pyStrip t2) →
      get_title_hash md5 t1 = get_title_hash md5 t2) := by
  constructor
  · exact get_title_hash_normalized
  · intro md5 t1 t2 h
    unfold get_title_hash
    congr 1
    rw [← pyLower_pyStrip, ← pyLower_pyStrip, h]

/-- Claim C10 witness: a padded mixed-case title and its normalized form
share one cache key. -/
theorem title_hash_respects_normalization_witness :
    pyLower (pyStrip "  Nike Air MAX ") = pyLower (pyStrip "nike air max") ∧
      get_title_hash (fun s => s) "  Nike Air MAX " =
        get_title_hash (fun s => s) "nike air max" := by
  constructor
  · decide
  · exact title_hash_respects_normalization.2 (fun s => s)
      "  Nike Air MAX " "nike air max" (by decide)

/-! ## Claim C4: semantics of the is_valid flag -/

/-- Claim C4 counterexample: for the dash-separated response
"Footwear - Running Shoes" the parser corrects the unregistered subcategory
to Athletic Shoes yet still reports is_valid = true, not false. -/
theorem dash_response_marked_valid :
    parse_and_validate_response "Footwear - Running Shoes" "Nike Air Max Running Shoes"
      = ("Footwear", "Athletic Shoes", true) ∧
    ¬ ((parse_and_validate_response "Footwear - Running Shoes"
        "Nike Air Max Running Shoes").2.2 = false) := by
  constructor
  · decide
  · decide

/-- Claim C4 (amended): is_valid is true exactly when one of the separator
patterns extracted a pair that the validator resolved (with or without fuzzy
correction); both no-pattern paths report false. In the dash scenario the
subcategory "Running Shoes" is not registered under Footwear, is corrected
to Athletic Shoes, and the result is still flagged is_valid = true. -/
theorem is_valid_iff_pattern_path :
    (parse_and_validate_response "Footwear - Running Shoes" "Nike Air Max Running Shoes"
      = ("Footwear", "Athletic Shoes", true))
  ∧ ((subcatsOf "Footwear").contains "Running Shoes" = false)
  ∧ (∀ response title,
      ((parse_and_validate_response response title).2.2 = true ↔
        ∃ p, tryPatterns (stripMarkers (pyStrip response)) = some p)) := by
  refine ⟨by decide, by decide, ?_⟩
  intro response title
  unfold parse_and_validate_response
  generalize stripMarkers (pyStrip response) = cleaned
  cases htp : tryPatterns cleaned with
  | some p =>
    obtain ⟨c0, s0⟩ := p
    simp
  | none =>
    cases hex : extract_single_category cleaned with
    | some cat => simp
    | none =>
      rcases hgf : get_fallback_category title with ⟨fc, fs, fb⟩
      have hfb : fb = false := (get_fallback_category_spec hgf).2
      simp [hgf, hfb]

/-- Claim C4 witness: the flag characterization applied to the dash-separated
scenario response. -/
theorem is_valid_iff_pattern_path_witness :
    (parse_and_validate_response "Footwear - Running Shoes"
      "Nike Air Max Running Shoes").2.2 = true :=
  (is_valid_iff_pattern_path.2.2 "Footwear - Running Shoes"
    "Nike Air Max Running Shoes").mpr ⟨("Footwear", "Athletic Shoes"), by decide⟩

/-! ## RobustCategoryGenerator.get_category_with_retries and
process_batch_robust. The loop for attempt in range(max_retries) is embedded
structurally: remaining counts the iterations left after the current one, so
remaining = 0 exactly on the final attempt (attempt = max_retries - 1). The
per-attempt LLM call is an oracle returning a response text or a raised
exception. -/

def retriesGo (oracle : ℕ → Except Unit String) (title : String)
    (max_retries : ℕ) (attempt : ℕ) : ℕ → String × String × Bool × ℕ
  | 0 =>
    ((get_fallback_category title).1, (get_fallback_category title).2.1,
      false, max_retries)
  | remaining + 1 =>
    match oracle attempt with
    | Except.ok text =>
      if (parse_and_validate_response (pyStrip text) title).2.2 || remaining == 0 then
        ((parse_and_validate_response (pyStrip text) title).1,
         (parse_and_validate_response (pyStrip text) title).2.1,
         (parse_and_validate_response (pyStrip text) title).2.2, attempt + 1)
      else retriesGo oracle title max_retries (attempt + 1) remaining
    | Except.error _ =>
      if remaining == 0 then
        ((get_fallback_category title).1, (get_fallback_category title).2.1,
          false, attempt + 1)
      else retriesGo oracle title max_retries (attempt + 1) remaining

def get_category_with_retries (oracle : ℕ → Except Unit String) (title : String)
    (max_retries : ℕ := 3) : String × String × Bool × ℕ :=
  retriesGo oracle title max_retries 0 max_retries

theorem retriesGo_attempts (oracle : ℕ → Except Unit String) (title : String)
    (mr : ℕ) :
    ∀ fuel attempt, 1 ≤ fuel →
      attempt + 1 ≤ (retriesGo oracle title mr attempt fuel).2.2.2 ∧
      (retriesGo oracle title mr attempt fuel).2.2.2 ≤ attempt + fuel := by
  intro fuel
  induction fuel with
  | zero => intro _ h; omega
  | succ rem ih =>
    intro attempt _
    cases ho : oracle attempt with
    | ok text =>
      by_cases hv : ((parse_and_validate_response (pyStrip text) title).2.2
          || rem == 0) = true
      · simp only [retriesGo, ho, hv, if_true]
        omega
      · have hrem : 1 ≤ rem := by
          rcases Nat.eq_zero_or_pos rem with h0 | h1
          · exfalso; apply hv; subst h0; simp
          · exact h1
        rw [Bool.not_eq_true] at hv
        simp only [retriesGo, ho, hv, Bool.false_eq_true, if_false]
        have := ih (attempt + 1) hrem
        omega
    | error e =>
      by_cases h0 : (rem == 0) = true
      · simp only [retriesGo, ho, h0, if_true]
        omega
      · have hrem : 1 ≤ rem := by
          rcases Nat.eq_zero_or_pos rem with hz | h1
          · exfalso; apply h0; subst hz; simp
          · exact h1
        rw [Bool.not_eq_true] at h0
        simp only [retriesGo, ho, h0, Bool.false_eq_true, if_false]
        have := ih (attempt + 1) hrem
        omega

theorem get_category_with_retries_attempts (oracle : ℕ → Except Unit String)
    (title : String) :
    1 ≤ (get_category_with_retries oracle title 3).2.2.2 ∧
      (get_category_with_retries oracle title 3).2.2.2 ≤ 3 := by
  have h := retriesGo_attempts oracle title 3 3 0 (by omega)
  unfold get_category_with_retries
  omega

/-- Outcome of one gathered task of process_batch_robust: either the task
itself raised (gather with return_exceptions returns the exception object)
or it ran get_category_with_retries against its attempt oracle. -/
inductive TaskOutcome : Type
  | raised
  | ran (oracle : ℕ → Except Unit String)

structure BatchRecord where
  title : String
  category : String
  subcategory : String
  is_valid : Bool
  attempts_used : ℕ
  method : String
deriving DecidableEq

/-- The per-title result assembly of process_batch_robust. -/
def processOne : String × TaskOutcome → BatchRecord
  | (title, TaskOutcome.raised) =>
    ⟨title, (get_fallback_category title).1, (get_fallback_category title).2.1,
      false, 0, "exception_fallback"⟩
  | (title, TaskOutcome.ran oracle) =>
    ⟨title, (get_category_with_retries oracle title 3).1,
      (get_category_with_retries oracle title 3).2.1,
      (get_category_with_retries oracle title 3).2.2.1,
      (get_category_with_retries oracle title 3).2.2.2, "openai_api"⟩

/-- RobustCategoryGenerator.process_batch_robust. The source gathers chunks
of ten and appends each chunk result positionally, so the value of the
output list is the positional map of the per-title assembly; chunking only
affects scheduling, which the embedding does not model. -/
def process_batch_robust (inputs : List (String × TaskOutcome)) : List BatchRecord :=
  inputs.map processOne

/-- Claim C5 (amended): every result produced through
get_category_with_retries carries attempts_used in [1, 3], but the
exception branch of process_batch_robust labels its fallback record with
attempts_used = 0, outside that interval. -/
theorem batch_attempts_spec :
    (∀ oracle title, 1 ≤ (get_category_with_retries oracle title 3).2.2.2 ∧
      (get_category_with_retries oracle title 3).2.2.2 ≤ 3)
  ∧ (∀ inputs r, r ∈ process_batch_robust inputs →
      (r.method = "openai_api" → 1 ≤ r.attempts_used ∧ r.attempts_used ≤ 3) ∧
      (r.method = "exception_fallback" → r.attempts_used = 0)) := by
  constructor
  · exact get_category_with_retries_attempts
  · intro inputs r hr
    rcases List.mem_map.mp hr with ⟨e, _, rfl⟩
    obtain ⟨title, outcome⟩ := e
    cases outcome with
    | raised =>
      constructor
      · intro hm; simp [processOne] at hm
      · intro _; rfl
    | ran oracle =>
      constructor
      · intro _; exact get_category_with_retries_attempts oracle title
      · intro hm; simp [processOne] at hm

/-- Claim C5 witness: the spec applied to a one-element batch whose task
raised. -/
theorem batch_attempts_spec_witness :
    (processOne ("Nike Shoes", TaskOutcome.raised)).attempts_used = 0 :=
  (batch_attempts_spec.2 [("Nike Shoes", TaskOutcome.raised)]
    (processOne ("Nike Shoes", TaskOutcome.raised)) (by decide)).2 (by decide)

/-- Claim C5 counterexample: a batch with a raised task yields a result
whose attempts_used is 0, not in [1, 3]. -/
theorem exception_result_attempts_zero :
    ¬ (∀ r ∈ process_batch_robust [("Nike Shoes", TaskOutcome.raised)],
        1 ≤ r.attempts_used ∧ r.attempts_used ≤ 3) := by
  decide

/-- Claim C8: per-title failure isolation in process_batch_robust. Each
output position depends only on the input at that position; a raised task
becomes an exception_fallback record for that title alone; a task whose
external calls raise on every attempt still returns the keyword-fallback
result through get_category_with_retries; and the batch function is total,
so no exception propagates out of it. -/
theorem batch_failure_isolation :
    (∀ inputs : List (String × TaskOutcome),
      (process_batch_robust inputs).length = inputs.length)
  ∧ (∀ inputs (i : ℕ),
      (process_batch_robust inputs)[i]? = (inputs[i]?).map processOne)
  ∧ (∀ title, processOne (title, TaskOutcome.raised) =
      ⟨title, (get_fallback_category title).1, (get_fallback_category title).2.1,
        false, 0, "exception_fallback"⟩)
  ∧ (∀ title oracle, (∀ n, oracle n = Except.error ()) →
      get_category_with_retries oracle title 3 =
        ((get_fallback_category title).1, (get_fallback_category title).2.1,
          false, 3)) := by
  refine ⟨?_, ?_, ?_, ?_⟩
  · intro inputs; exact List.length_map inputs processOne
  · intro inputs i; exact List.getElem?_map processOne inputs i
  · intro title; rfl
  · intro title oracle h
    unfold get_category_with_retries
    simp only [retriesGo, h 0, h 1, h 2]
    norm_num

/-- Claim C8 witness: a task whose three attempts all raise resolves to the
keyword fallback for its own title. -/
theorem batch_failure_isolation_witness :
    get_category_with_retries (fun _ => Except.error ()) "Nike Air Max Shoes" 3 =
      ((get_fallback_category "Nike Air Max Shoes").1,
        (get_fallback_category "Nike Air Max Shoes").2.1, false, 3) :=
  batch_failure_isolation.2.2.2 "Nike Air Max Shoes" (fun _ => Except.error ())
    (fun _ => rfl)

/-! ## normalize_titles (claim C6). Two variants exist in the repository:
the one in src/analyze/category_gen.py tests pd.isna and substitutes the
sentinel, while the list comprehension shared by category_gen.py,
category_gen_optimized.py and category_gen_robust.py calls .strip() on the
raw cell and raises AttributeError on a NaN float. -/

/-- A cell of the pandas title column: a value (rendered through str) or
NaN/absent. -/
inductive Cell : Type
  | na
  | str (s : String)
deriving DecidableEq

/-- normalize_titles of src/analyze/category_gen.py. -/
def normalize_titles (col : List Cell) : List String :=
  col.map (fun c => match c with
    | Cell.na => "unknown product"
    | Cell.str t => pyLower (pyStrip t))

/-- Left-to-right effectful map over the column: the first raised exception
aborts the whole comprehension. -/
def mapExcept (f : Cell → Except String String) :
    List Cell → Except String (List String)
  | [] => Except.ok []
  | c :: cs =>
    match f c with
    | Except.error e => Except.error e
    | Except.ok b =>
      match mapExcept f cs with
      | Except.error e => Except.error e
      | Except.ok bs => Except.ok (b :: bs)

/-- normalize_titles of src/category_gen_optimized.py (and category_gen.py,
category_gen_robust.py): no NaN guard. -/
def normalize_titles_optimized (col : List Cell) : Except String (List String) :=
  mapExcept (fun c => match c with
    | Cell.na => Except.error "AttributeError: nan has no strip method"
    | Cell.str t => Except.ok (pyLower (pyStrip t))) col

/-- Claim C6 (amended): the NaN-guarded normalizer maps NaN cells to the
sentinel "unknown product" and all other cells to their stripped, lowered
form, and never fails; the unguarded normalizer of
category_gen_optimized.py instead raises on any column containing a NaN
cell, and agrees with the guarded one only on NaN-free columns. -/
theorem normalize_titles_spec :
    (∀ (col : List Cell) (i : ℕ), col[i]? = some Cell.na →
      (normalize_titles col)[i]? = some "unknown product")
  ∧ (∀ (col : List Cell) (i : ℕ) (t : String), col[i]? = some (Cell.str t) →
      (normalize_titles col)[i]? = some (pyLower (pyStrip t)))
  ∧ (∀ col : List Cell, Cell.na ∈ col →
      ∃ e, normalize_titles_optimized col = Except.error e)
  ∧ (∀ col : List Cell, ¬ Cell.na ∈ col →
      normalize_titles_optimized col = Except.ok (normalize_titles col)) := by
  refine ⟨?_, ?_, ?_, ?_⟩
  · intro col i h
    unfold normalize_titles
    rw [List.getElem?_map, h]
    rfl
  · intro col i t h
    unfold normalize_titles
    rw [List.getElem?_map, h]
    rfl
  · intro col hmem
    induction col with
    | nil => cases hmem
    | cons c cs ih =>
      cases c with
      | na => exact ⟨_, rfl⟩
      | str t =>
        have hcs : Cell.na ∈ cs := by
          rcases List.mem_cons.mp hmem with h1 | h2
          · exact Cell.noConfusion h1
          · exact h2
        rcases ih hcs with ⟨e, he⟩
        refine ⟨e, ?_⟩
        unfold normalize_titles_optimized at he ⊢
        unfold mapExcept
        dsimp only
        rw [he]
  · intro col hmem
    induction col with
    | nil => rfl
    | cons c cs ih =>
      cases c with
      | na => exact absurd (List.mem_cons_self Cell.na cs) hmem
      | str t =>
        have hcs : ¬ Cell.na ∈ cs := fun h => hmem (List.mem_cons_of_mem _ h)
        have := ih hcs
        unfold normalize_titles_optimized at this ⊢
        unfold mapExcept
        dsimp only
        rw [this]
        rfl

/-- Claim C6 witness: a singleton NaN column. -/
theorem normalize_titles_spec_witness :
    (normalize_titles [Cell.na])[0]? = some "unknown product" ∧
      ∃ e, normalize_titles_optimized [Cell.na] = Except.error e :=
  ⟨normalize_titles_spec.1 [Cell.na] 0 rfl,
   normalize_titles_spec.2.2.1 [Cell.na] (List.mem_singleton.mpr rfl)⟩

/-- Claim C6 counterexample: on a column holding a NaN cell, the normalizer
of category_gen_optimized.py raises instead of completing with the sentinel. -/
theorem normalize_optimized_raises_on_nan :
    normalize_titles_optimized [Cell.str "  Nike ", Cell.na]
        = Except.error "AttributeError: nan has no strip method" ∧
      ∀ out, normalize_titles_optimized [Cell.str "  Nike ", Cell.na]
        ≠ Except.ok out := by
  constructor
  · rfl
  · intro out h
    simp [normalize_titles_optimized, mapExcept] at h

/-! ## calculate_confidence_scores (claim C7). Two variants exist:
category_gen_optimized.py (flat 0.3 for noise, pure cluster blend) and
category_gen_robust.py (validator signal 0.9/0.6 blended with the cluster
signal). Float arithmetic is idealized over ℚ; Python round(x, 3) is
modelled as round-half-up to three decimals (round3), which agrees with the
float behaviour away from ties. -/

structure CRow where
  cluster_label : ℤ
  openai_category : String
  openai_subcategory : String
  categorization_valid : Bool

def round3 (x : ℚ) : ℚ := (round (x * 1000) : ℤ) / 1000

/-- The rows sharing the cluster label of r. -/
def clusterOf (rows : List CRow) (r : CRow) : List CRow :=
  rows.filter (fun q => q.cluster_label == r.cluster_label)

def category_consistency (rows : List CRow) (r : CRow) : ℚ :=
  (((clusterOf rows r).filter
      (fun q => q.openai_category == r.openai_category)).length : ℚ) /
    ((clusterOf rows r).length : ℚ)

def subcategory_consistency (rows : List CRow) (r : CRow) : ℚ :=
  (((clusterOf rows r).filter
      (fun q => q.openai_subcategory == r.openai_subcategory)).length : ℚ) /
    ((clusterOf rows r).length : ℚ)

def size_multiplier (n : ℕ) : ℚ :=
  if 10 ≤ n then 11/10 else if 5 ≤ n then 1 else if 3 ≤ n then 9/10 else 8/10

def base_confidence (rows : List CRow) (r : CRow) : ℚ :=
  category_consistency rows r * (6/10) + subcategory_consistency rows r * (4/10)

/-- Per-row confidence of category_gen_optimized.py. -/
def confidence_row (rows : List CRow) (r : CRow) : ℚ :=
  if r.cluster_label = -1 then 3/10
  else round3 (min
    (base_confidence rows r * size_multiplier (clusterOf rows r).length) 1)

def calculate_confidence_scores (rows : List CRow) : List ℚ :=
  rows.map (confidence_row rows)

def base_confidence_robust (r : CRow) : ℚ :=
  if r.categorization_valid then 9/10 else 6/10

/-- Per-row confidence of category_gen_robust.py: the validator signal is
blended 0.7/0.3 with the size-adjusted cluster signal; noise rows get 0.3
times the validator signal (not rounded in the source). -/
def confidence_row_robust (rows : List CRow) (r : CRow) : ℚ :=
  if r.cluster_label = -1 then base_confidence_robust r * (3/10)
  else round3 (min
    (base_confidence_robust r * (7/10) +
      base_confidence rows r * size_multiplier (clusterOf rows r).length * (3/10)) 1)

def calculate_confidence_scores_robust (rows : List CRow) : List ℚ :=
  rows.map (confidence_row_robust rows)

theorem round_le_round {a b : ℚ} (h : a ≤ b) : round a ≤ round b := by
  rw [round_eq, round_eq]
  exact Int.floor_le_floor (by linarith)

theorem round3_mem {x : ℚ} (h0 : 0 ≤ x) (h1 : x ≤ 1) :
    0 ≤ round3 x ∧ round3 x ≤ 1 := by
  unfold round3
  have hlo : (0 : ℤ) ≤ round (x * 1000) := by
    have := round_le_round (show (0:ℚ) ≤ x * 1000 by nlinarith)
    simpa using this
  have hhi : round (x * 1000) ≤ 1000 := by
    have h := round_le_round (show x * 1000 ≤ (1000 : ℚ) by nlinarith)
    have h1000 : round ((1000 : ℚ)) = 1000 := by rw [round_eq]; norm_num
    rw [h1000] at h
    exact h
  constructor
  · positivity
  · rw [div_le_one (by norm_num)]
    exact_mod_cast hhi

theorem consistency_mem (num den : ℕ) (hle : num ≤ den) :
    0 ≤ ((num : ℚ) / (den : ℚ)) ∧ ((num : ℚ) / (den : ℚ)) ≤ 1 := by
  constructor
  · positivity
  · rcases Nat.eq_zero_or_pos den with h0 | hpos
    · subst h0; simp
    · rw [div_le_one (by exact_mod_cast hpos)]
      exact_mod_cast hle

theorem category_consistency_mem (rows : List CRow) (r : CRow) :
    0 ≤ category_consistency rows r ∧ category_consistency rows r ≤ 1 :=
  consistency_mem _ _ (List.length_filter_le _ _)

theorem subcategory_consistency_mem (rows : List CRow) (r : CRow) :
    0 ≤ subcategory_consistency rows r ∧ subcategory_consistency rows r ≤ 1 :=
  consistency_mem _ _ (List.length_filter_le _ _)

theorem base_confidence_mem (rows : List CRow) (r : CRow) :
    0 ≤ base_confidence rows r ∧ base_confidence rows r ≤ 1 := by
  have h1 := category_consistency_mem rows r
  have h2 := subcategory_consistency_mem rows r
  unfold base_confidence
  constructor <;> nlinarith [h1.1, h1.2, h2.1, h2.2]

theorem size_multiplier_mem (n : ℕ) :
    0 < size_multiplier n ∧ size_multiplier n ≤ 11/10 := by
  unfold size_multiplier
  split
  · norm_num
  · split
    · norm_num
    · split <;> norm_num

theorem confidence_row_mem (rows : List CRow) (r : CRow) :
    0 ≤ confidence_row rows r ∧ confidence_row rows r ≤ 1 := by
  unfold confidence_row
  split
  · norm_num
  · have hb := base_confidence_mem rows r
    have hm := size_multiplier_mem (clusterOf rows r).length
    apply round3_mem
    · exact le_min (by nlinarith [hb.1, hm.1]) (by norm_num)
    · exact min_le_right _ _

theorem confidence_row_robust_mem (rows : List CRow) (r : CRow) :
    0 ≤ confidence_row_robust rows r ∧ confidence_row_robust rows r ≤ 1 := by
  have hbr : 0 ≤ base_confidence_robust r ∧ base_confidence_robust r ≤ 9/10 := by
    unfold base_confidence_robust
    split <;> norm_num
  unfold confidence_row_robust
  split
  · constructor <;> nlinarith [hbr.1, hbr.2]
  · have hb := base_confidence_mem rows r
    have hm := size_multiplier_mem (clusterOf rows r).length
    apply round3_mem
    · exact le_min (by nlinarith [hb.1, hm.1, hbr.1]) (by norm_num)
    · exact min_le_right _ _

/-- Claim C7 (amended): in the category_gen_optimized.py estimator, each
noise-labelled row (cluster −1) scores the flat 0.3; every other row scores
round(min((0.6·categoryFraction + 0.4·subcategoryFraction)·m, 1.0), 3) with
m = 1.1, 1.0, 0.9, 0.8 by cluster size; all scores of both estimators lie
in [0, 1]; and in the category_gen_robust.py estimator a noise row instead
scores 0.3 times its validator signal (0.9 when validated, 0.6 otherwise). -/
theorem confidence_scores_spec :
    (∀ (rows : List CRow) (i : ℕ) (r : CRow), rows[i]? = some r →
      r.cluster_label = -1 →
      (calculate_confidence_scores rows)[i]? = some (3/10))
  ∧ (∀ (rows : List CRow) (i : ℕ) (r : CRow), rows[i]? = some r →
      r.cluster_label ≠ -1 →
      (calculate_confidence_scores rows)[i]? = some (round3 (min
        ((((rows.countP (fun q => q.openai_category == r.openai_category &&
              q.cluster_label == r.cluster_label)) : ℚ) /
            ((rows.countP (fun q => q.cluster_label == r.cluster_label)) : ℚ) * (6/10) +
          ((rows.countP (fun q => q.openai_subcategory == r.openai_subcategory &&
              q.cluster_label == r.cluster_label)) : ℚ) /
            ((rows.countP (fun q => q.cluster_label == r.cluster_label)) : ℚ) * (4/10)) *
          size_multiplier (rows.countP (fun q => q.cluster_label == r.cluster_label))) 1)))
  ∧ (∀ (rows : List CRow) (x : ℚ), x ∈ calculate_confidence_scores rows →
      0 ≤ x ∧ x ≤ 1)
  ∧ (∀ (rows : List CRow) (x : ℚ), x ∈ calculate_confidence_scores_robust rows →
      0 ≤ x ∧ x ≤ 1)
  ∧ (∀ (rows : List CRow) (i : ℕ) (r : CRow), rows[i]? = some r →
      r.cluster_label = -1 →
      (calculate_confidence_scores_robust rows)[i]? =
        some (base_confidence_robust r * (3/10))) := by
  refine ⟨?_, ?_, ?_, ?_, ?_⟩
  · intro rows i r h hnoise
    unfold calculate_confidence_scores
    rw [List.getElem?_map, h, Option.map_some']
    unfold confidence_row
    rw [if_pos hnoise]
  · intro rows i r h hnn
    unfold calculate_confidence_scores
    rw [List.getElem?_map, h, Option.map_some']
    unfold confidence_row
    rw [if_neg hnn]
    have hcat : category_consistency rows r =
        ((rows.countP (fun q => q.openai_category == r.openai_category &&
            q.cluster_label == r.cluster_label)) : ℚ) /
          ((rows.countP (fun q => q.cluster_label == r.cluster_label)) : ℚ) := by
      unfold category_consistency clusterOf
      rw [List.countP_eq_length_filter, List.countP_eq_length_filter,
        List.filter_filter]
    have hsub : subcategory_consistency rows r =
        ((rows.countP (fun q => q.openai_subcategory == r.openai_subcategory &&
            q.cluster_label == r.cluster_label)) : ℚ) /
          ((rows.countP (fun q => q.cluster_label == r.cluster_label)) : ℚ) := by
      unfold subcategory_consistency clusterOf
      rw [List.countP_eq_length_filter, List.countP_eq_length_filter,
        List.filter_filter]
    have hsize : (clusterOf rows r).length =
        rows.countP (fun q => q.cluster_label == r.cluster_label) := by
      unfold clusterOf
      rw [List.countP_eq_length_filter]
    rw [show base_confidence rows r = category_consistency rows r * (6/10) +
        subcategory_consistency rows r * (4/10) from rfl, hcat, hsub, hsize]
  · intro rows x hx
    rcases List.mem_map.mp hx with ⟨r, _, rfl⟩
    exact confidence_row_mem rows r
  · intro rows x hx
    rcases List.mem_map.mp hx with ⟨r, _, rfl⟩
    exact confidence_row_robust_mem rows r
  · intro rows i r h hnoise
    unfold calculate_confidence_scores_robust
    rw [List.getElem?_map, h, Option.map_some']
    unfold confidence_row_robust
    rw [if_pos hnoise]

/-- Claim C7 witness: a singleton noise row, and the range bound at its
score. -/
theorem confidence_scores_spec_witness :
    (calculate_confidence_scores [⟨-1, "A", "B", true⟩])[0]? = some (3/10) ∧
      (0 ≤ confidence_row [⟨-1, "A", "B", true⟩] ⟨-1, "A", "B", true⟩ ∧
        confidence_row [⟨-1, "A", "B", true⟩] ⟨-1, "A", "B", true⟩ ≤ 1) :=
  ⟨confidence_scores_spec.1 [⟨-1, "A", "B", true⟩] 0 ⟨-1, "A", "B", true⟩ rfl rfl,
   confidence_scores_spec.2.2.1 [⟨-1, "A", "B", true⟩] _ (List.mem_singleton.mpr rfl)⟩

/-- Claim C7 counterexample: in the robust estimator (one of the two cited
sources) a noise row whose categorization was corrected scores
0.6 × 0.3 = 0.18, not the flat 0.3 the claim states. -/
theorem robust_noise_confidence_not_flat :
    calculate_confidence_scores_robust [⟨-1, "A", "B", false⟩] = [9/50] ∧
      (9/50 : ℚ) ≠ 3/10 := by
  constructor
  · show [confidence_row_robust _ _] = _
    norm_num [confidence_row_robust, base_confidence_robust]
  · norm_num

/-! ## RateLimiter (claim C3). The two copies in src/category_gen.py and
src/analyze/category_gen.py are identical. wait_if_needed holds the lock for
the whole call, including across the sleep, so calls are serialized and are
modelled as a sequence of steps; the clock is the caller-supplied call time,
assumed monotone across calls; asyncio.sleep may oversleep, so the post-sleep
time is any value at least the requested one. Times are exact rationals. -/

def prune (now : ℚ) (l : List ℚ) : List ℚ := l.filter (fun r => now - r < 60)

/-- One wait_if_needed call: starting from request list s at call time
tcall, the call appends its admission timestamp tgrant and leaves the
pruned list. When the pruned list is full the code always sleeps (the
computed sleep time exceeds the 0.1 buffer because the oldest retained
request is younger than 60s), re-reads the clock and prunes again; it does
not re-check the count. -/
inductive RLStep (m : ℕ) : List ℚ → ℚ → List ℚ → ℚ → Prop
  | noWait {s : List ℚ} {tcall : ℚ}
      (hlen : (prune tcall s).length < m) :
      RLStep m s tcall (prune tcall s ++ [tcall]) tcall
  | wait {s : List ℚ} {tcall tgrant r0 : ℚ} {rest : List ℚ}
      (hfull : m ≤ (prune tcall s).length)
      (hhead : prune tcall s = r0 :: rest)
      (hsleep : tcall + (60 - (tcall - r0) + 1/10) ≤ tgrant) :
      RLStep m s tcall (prune tgrant (prune tcall s) ++ [tgrant]) tgrant

/-- A serialized sequence of wait_if_needed calls under a monotone clock:
after the admissions adm (in call order, the last one at time t) the
request list is s. -/
inductive RLTrace (m : ℕ) : List ℚ → List ℚ → ℚ → Prop
  | nil (t : ℚ) : RLTrace m [] [] t
  | step {adm s : List ℚ} {t tcall tgrant : ℚ} {s2 : List ℚ}
      (htr : RLTrace m adm s t) (hmono : t ≤ tcall)
      (hstep : RLStep m s tcall s2 tgrant) :
      RLTrace m (adm ++ [tgrant]) s2 tgrant

theorem prune_filter_chain {t1 t2 : ℚ} (adm : List ℚ) (h12 : t1 ≤ t2) :
    prune t2 (adm.filter (fun a => decide (t1 - a < 60))) =
      adm.filter (fun a => decide (t2 - a < 60)) := by
  unfold prune
  rw [List.filter_filter]
  apply List.filter_congr
  intro a _
  by_cases h2 : t2 - a < 60
  · have h1 : t1 - a < 60 := by linarith
    simp [h1, h2]
  · simp [h2]

theorem mem_prune_lt {now r : ℚ} {l : List ℚ} (h : r ∈ prune now l) :
    now - r < 60 := by
  have := (List.mem_filter.mp h).2
  simpa using this

/-- The request list is exactly the admissions inside the trailing window of
the last admission, and never exceeds the limit. -/
theorem rl_invariant {m : ℕ} {adm s : List ℚ} {t : ℚ} (h : RLTrace m adm s t) :
    s = adm.filter (fun a => decide (t - a < 60)) ∧ s.length ≤ m := by
  induction h with
  | nil t0 => exact ⟨rfl, Nat.zero_le m⟩
  | step htr hmono hstep ih =>
    obtain ⟨hfil, hlen⟩ := ih
    cases hstep with
    | noWait hlen2 =>
      rename_i adm s t tcall
      constructor
      · rw [List.filter_append, hfil, prune_filter_chain adm hmono]
        have hself : (decide (tcall - tcall < 60) && true) = true := by norm_num
        simp only [List.filter_cons, List.filter_nil]
        norm_num
      · have := hlen2
        have h1 : (prune tcall s).length + 1 ≤ m := this
        simpa using h1
    | wait hfull hhead hsleep =>
      rename_i adm s t tcall tgrant r0 rest
      have hr0 : tcall - r0 < 60 :=
        mem_prune_lt (hhead ▸ List.mem_cons_self r0 rest)
      have hmono2 : tcall ≤ tgrant := by linarith
      constructor
      · rw [List.filter_append, hfil, prune_filter_chain adm hmono,
          prune_filter_chain adm hmono2]
        simp only [List.filter_cons, List.filter_nil]
        norm_num
      · have hr0drop : ¬ (tgrant - r0 < 60) := by linarith
        have hlen1 : (prune tcall s).length ≤ s.length := List.length_filter_le _ _
        have hstep1 : (prune tgrant (prune tcall s)).length ≤ rest.length := by
          rw [hhead]
          unfold prune
          rw [List.filter_cons]
          simp only [hr0drop, decide_eq_true_eq, if_false]
          simpa using List.length_filter_le _ rest
        have hrest : rest.length + 1 = (prune tcall s).length := by
          rw [hhead]; rfl
        have := List.length_append (prune tgrant (prune tcall s)) [tgrant]
        simp only [List.length_append, List.length_singleton]
        omega

/-- Claim C3: along every serialized execution of wait_if_needed with a
monotone clock, at most m admissions fall inside any trailing 60-second
window (T − 60, T]. -/
theorem rate_limiter_window_bound {m : ℕ} {adm s : List ℚ} {t : ℚ}
    (h : RLTrace m adm s t) (T : ℚ) :
    adm.countP (fun a => decide (T - a < 60) && decide (a ≤ T)) ≤ m := by
  induction h with
  | nil t0 => simp
  | step htr hmono hstep ih =>
    rename_i adm s t tcall tgrant s2
    by_cases hw : (decide (T - tgrant < 60) && decide (tgrant ≤ T)) = true
    · have hinv := rl_invariant (RLTrace.step htr hmono hstep)
      have hTad : tgrant ≤ T := by
        have := hw
        simp only [Bool.and_eq_true, decide_eq_true_eq] at this
        exact this.2
      have hmon : ∀ a ∈ adm ++ [tgrant],
          (decide (T - a < 60) && decide (a ≤ T)) = true →
          decide (tgrant - a < 60) = true := by
        intro a _ hWa
        simp only [Bool.and_eq_true, decide_eq_true_eq] at hWa
        simp only [decide_eq_true_eq]
        linarith [hWa.1, hWa.2]
      calc (adm ++ [tgrant]).countP (fun a => decide (T - a < 60) && decide (a ≤ T))
          ≤ (adm ++ [tgrant]).countP (fun a => decide (tgrant - a < 60)) :=
            List.countP_mono_left hmon
        _ = ((adm ++ [tgrant]).filter (fun a => decide (tgrant - a < 60))).length :=
            List.countP_eq_length_filter _ _
        _ = s2.length := by rw [← hinv.1]
        _ ≤ m := hinv.2
    · rw [Bool.not_eq_true] at hw
      rw [List.countP_append]
      have hone : [tgrant].countP (fun a => decide (T - a < 60) && decide (a ≤ T)) = 0 := by
        simp [List.countP_cons, hw]
      rw [hone]
      simpa using ih

/-- Claim C3 witness: a one-admission trace with limit 1, checked at the
window ending at the admission time. -/
theorem rate_limiter_window_bound_witness :
    ([(0 : ℚ)].countP (fun a => decide ((0:ℚ) - a < 60) && decide (a ≤ (0:ℚ)))) ≤ 1 :=
  rate_limiter_window_bound
    (RLTrace.step (RLTrace.nil 0) le_rfl (RLStep.noWait (by simp [prune]))) 0

end Mercari
